import Mathlib

/-!
Verification development for the Bronze-layer ingestion pipeline of
`dwh_finalproject_3DSA_group_LLN` (scripts/bronze/ingest_to_bronze.py and
scripts/bronze/modded_bronzeval.py).

The Python pipeline is shallowly embedded: pandas DataFrames become a `Table`
of named string columns, the per-file filesystem and pandas-reader outcomes
become explicit environment inputs (`FileEnv`), `time.sleep` calls are
collected as a list of requested delays, raised exceptions become explicit
result constructors, and the global `validation_log` becomes a returned list
of `Event` values.  Each `log_validation` call site is reproduced with the
stage / issue-type / details / severity strings of the source; the
`timestamp` field the source also stamps (`datetime.now().isoformat()`) is a
wall-clock environment value with no bearing on any claim and is omitted.
-/

/-- One record of the global `validation_log` (`log_validation`,
ingest_to_bronze.py lines 16-26).  The wall-clock `timestamp` field is
omitted (see module comment). -/
structure Event where
  stage : String
  file : String
  issueType : String
  details : String
  severity : String
deriving DecidableEq, Repr

/-- In-memory tabular value standing for a pandas DataFrame: a row count and
an ordered list of named columns with string cell values.  (`nrows` is kept
separately because a pandas DataFrame with zero columns can still have a
nonzero index length.) -/
structure Table where
  nrows : Nat
  cols : List (String × List String)
deriving DecidableEq, Repr

def Table.colNames (t : Table) : List String := t.cols.map Prod.fst

def Table.ncols (t : Table) : Nat := t.cols.length

/-- `df.empty` in pandas: true when either axis has length zero. -/
def Table.isEmpty (t : Table) : Bool := t.nrows == 0 || t.ncols == 0

/-- Column lookup by name (first match), used to state what a written
column holds. -/
def lookupCol (n : String) : List (String × List String) → Option (List String)
  | [] => none
  | (k, v) :: rest => if k = n then some v else lookupCol n rest

/-- `df[name] = scalar` in pandas: broadcast the scalar to every row,
overwriting the column when it already exists and appending it otherwise. -/
def Table.setCol (t : Table) (name v : String) : Table :=
  let newCol := List.replicate t.nrows v
  if name ∈ t.colNames then
    { nrows := t.nrows,
      cols := t.cols.map (fun p => if p.1 = name then (name, newCol) else p) }
  else
    { nrows := t.nrows, cols := t.cols ++ [(name, newCol)] }

/-! ## Path helpers

`path.split(".")[-1].lower()` and `os.path.basename` are modelled on the
character list of the path. -/

/-- Split a character list on a delimiter character; always returns at least
one (possibly empty) piece, like Python `str.split` on a one-character
separator. -/
def splitOnChar (d : Char) : List Char → List (List Char)
  | [] => [[]]
  | c :: rest =>
    if c = d then [] :: splitOnChar d rest
    else
      match splitOnChar d rest with
      | [] => [[c]]
      | h :: t => (c :: h) :: t

/-- Python `str.lower()` restricted to ASCII case mapping. -/
def pyLower (s : String) : String := String.mk (s.data.map Char.toLower)

/-- `path.split(".")[-1].lower()` (ingest_to_bronze.py line 73,
modded_bronzeval.py line 71). -/
def extOf (path : String) : String :=
  pyLower (String.mk ((splitOnChar '.' path.data).getLastD []))

/-- `os.path.basename` for forward-slash paths. -/
def basename (path : String) : String :=
  String.mk ((splitOnChar '/' path.data).getLastD [])

/-! ## Extractor (`load_dataset`, ingest_to_bronze.py lines 67-103)

The pandas readers (`read_csv`, `read_parquet`, ...) touch the filesystem,
so their outcome at each attempt is an environment input: a `decode` oracle
mapping the attempt index to either a table or a failure message.  The
dispatch itself is deterministic: a recognized extension consults the
oracle, an unrecognized one raises `ValueError` inside the `try` block. -/

inductive DecodeResult where
  | ok (t : Table)
  | err (msg : String)

/-- Extensions with a reader branch in `load_dataset`. -/
def supportedExts : List String :=
  ["csv", "parquet", "pickle", "pkl", "xlsx", "xls", "json", "html"]

/-- The body of the `try` block at one attempt: dispatch on the extension;
an unrecognized extension raises `ValueError(f"Unsupported file type: ...")`
(line 91), which the surrounding `except` catches like any reader failure. -/
def attemptDecode (ext : String) (decode : Nat → DecodeResult) (attempt : Nat) :
    DecodeResult :=
  if supportedExts.contains ext then decode attempt
  else DecodeResult.err ("Unsupported file type: " ++ ext)

/-- Outcome of `load_dataset`: a returned table, a propagated exception, or
the implicit `None` return when the `for` loop body never runs. -/
inductive ExtractResult where
  | ok (t : Table)
  | raised (msg : String)
  | noneReturned
deriving DecidableEq, Repr

/-- The `RETRY_EXTRACT` WARNING logged at lines 96-98. -/
def retryEvent (file : String) (attempt : Nat) (maxRetries : Int) (msg : String)
    (wait : Nat) : Event :=
  { stage := "EXTRACT", file := file, issueType := "RETRY_EXTRACT",
    details := "Attempt " ++ toString (attempt + 1) ++ "/" ++ toString maxRetries
      ++ " failed: " ++ msg ++ ". Retrying in " ++ toString wait ++ "s...",
    severity := "WARNING" }

/-- The `EXTRACTION_FAILED` ERROR logged at lines 101-102. -/
def failedEvent (file : String) (maxRetries : Int) (msg : String) : Event :=
  { stage := "EXTRACT", file := file, issueType := "EXTRACTION_FAILED",
    details := "All " ++ toString maxRetries ++ " attempts exhausted: " ++ msg,
    severity := "ERROR" }

/-- Python `range(n)` for a possibly non-positive bound. -/
def pyRange (n : Int) : List Nat := List.range n.toNat

/-- The `for attempt in range(max_retries)` loop, over the list of remaining
attempt indices.  Returns the result together with the logged events and the
`time.sleep` delays requested (in seconds). -/
def load_go (path : String) (decode : Nat → DecodeResult) (maxRetries : Int) :
    List Nat → ExtractResult × List Event × List Nat
  | [] => (ExtractResult.noneReturned, [], [])
  | attempt :: rest =>
    match attemptDecode (extOf path) decode attempt with
    | DecodeResult.ok t => (ExtractResult.ok t, [], [])
    | DecodeResult.err msg =>
      if (attempt : Int) < maxRetries - 1 then
        let wait := 2 ^ attempt
        let r := load_go path decode maxRetries rest
        (r.1, retryEvent (basename path) attempt maxRetries msg wait :: r.2.1,
          wait :: r.2.2)
      else
        (ExtractResult.raised msg, [failedEvent (basename path) maxRetries msg], [])

/-- `load_dataset(path, max_retries)` (ingest_to_bronze.py lines 67-103). -/
def load_dataset (path : String) (decode : Nat → DecodeResult) (maxRetries : Int) :
    ExtractResult × List Event × List Nat :=
  load_go path decode maxRetries (pyRange maxRetries)

/-! ## First validation checkpoint (`first_validation`, lines 106-143)

`os.path.exists` and `os.path.getsize` at validation time are the
environment inputs `fexists` and `size`. -/

def fvEvent (file issueType details severity : String) : Event :=
  { stage := "FIRST_VALIDATION", file := file, issueType := issueType,
    details := details, severity := severity }

/-- `first_validation(df, file, file_path)`: returns the pass/fail verdict
and the events logged, in logging order. -/
def first_validation (df : Option Table) (file path : String)
    (fexists : Bool) (size : Nat) : Bool × List Event :=
  if !fexists then
    (false, [fvEvent file "FILE_NOT_FOUND" ("File does not exist: " ++ path) "ERROR"])
  else if size < 10 then
    (false, [fvEvent file "EMPTY_FILE"
      ("File size is " ++ toString size ++ " bytes (too small)") "ERROR"])
  else
    match df with
    | none => (false, [fvEvent file "NULL_DATAFRAME" "Extraction returned None" "ERROR"])
    | some t =>
      let we : List Event :=
        if t.isEmpty then
          [fvEvent file "EMPTY_DATAFRAME" "DataFrame has no rows" "WARNING"]
        else []
      if t.ncols = 0 then
        (false, we ++ [fvEvent file "NO_COLUMNS" "DataFrame has no columns" "ERROR"])
      else (true, we)

/-! ## Output naming

Character-class helpers for the regular expressions used by the two
scripts: `[\s\-\.]+` in `standardize_filename` (ingest_to_bronze.py line
149) and `[\s\-]+` in `raw_loading_zone` (modded_bronzeval.py line 123). -/

/-- Python regex `\s` (ASCII whitespace). -/
def isPySpace (c : Char) : Bool :=
  c = ' ' || c = '\t' || c = '\n' || c = '\x0d' || c = '\x0b' || c = '\x0c'

/-- Character class `[\s\-]`. -/
def whMark (c : Char) : Bool := isPySpace c || c = '-'

/-- Character class `[\s\-\.]`. -/
def whdMark (c : Char) : Bool := isPySpace c || c = '-' || c = '.'

/-- `re.sub(r'[class]+', '_', s)`: every maximal run of characters matching
`p` becomes one underscore.  `inRun` records whether the previous character
was part of a run already replaced. -/
def collapseRuns (p : Char → Bool) : Bool → List Char → List Char
  | _, [] => []
  | inRun, c :: rest =>
    if p c then
      if inRun then collapseRuns p true rest
      else '_' :: collapseRuns p true rest
    else c :: collapseRuns p false rest

/-- Index of the last occurrence of `c`, if any. -/
def lastIdxOf (c : Char) (l : List Char) : Option Nat :=
  ((l.enum.filter (fun q => q.2 = c)).getLast?).map Prod.fst

/-- `file_name.rsplit(".", 1)[0]` (ingest_to_bronze.py line 148): cut at the
last dot, whole string if there is none. -/
def rsplitBase (l : List Char) : List Char :=
  match lastIdxOf '.' l with
  | none => l
  | some i => l.take i

/-- `os.path.splitext(file)[0]` (modded_bronzeval.py line 123): cut at the
last dot, except that a dot preceded only by dots (a leading-dot name such
as `.bashrc`) starts no extension. -/
def splitextBase (l : List Char) : List Char :=
  match lastIdxOf '.' l with
  | none => l
  | some i => if (l.take i).any (fun c => c ≠ '.') then l.take i else l

/-- `standardize_filename(file_name, department)` (ingest_to_bronze.py lines
146-151): base is `rsplit`-stripped, `[\s\-\.]+` runs collapsed, then
lower-cased; department has each space replaced by an underscore, then is
lower-cased; joined with `_` and given the `.parquet` extension. -/
def standardize_filename (file_name department : String) : String :=
  let base := (collapseRuns whdMark false (rsplitBase file_name.data)).map Char.toLower
  let dept := (department.data.map (fun c => if c = ' ' then '_' else c)).map Char.toLower
  String.mk dept ++ "_" ++ String.mk base ++ ".parquet"

/-- The output name computed inline in modded_bronzeval.py lines 123-124:
`clean_name = re.sub(r"[\s\-]+", "_", os.path.splitext(file)[0].lower())`,
`out_name = f"{department.lower()}_{clean_name}_bronze.parquet"`. -/
def modded_out_name (department file : String) : String :=
  let clean := collapseRuns whMark false ((splitextBase file.data).map Char.toLower)
  String.mk (department.data.map Char.toLower) ++ "_" ++ String.mk clean
    ++ "_bronze.parquet"

/-! ## BronzeWriter and orchestrator (`raw_loading_zone`,
ingest_to_bronze.py lines 153-203)

Per-file filesystem and reader behaviour is an explicit environment
(`FileEnv`): whether the source still exists at validation time, its size,
the reader outcome at each extraction attempt, and whether `to_parquet`
raises. -/

/-- The four audit column assignments of lines 183-186, in program order. -/
def bronzeAugment (t : Table) (ingest_ts batch_id department filename : String) :
    Table :=
  (((t.setCol "ingest_ts" ingest_ts).setCol "batch_id" batch_id).setCol
      "source_department" department).setCol "source_filename" filename

def auditColumns : List String :=
  ["ingest_ts", "batch_id", "source_department", "source_filename"]

structure FileEnv where
  fileExists : Bool
  size : Nat
  decode : Nat → DecodeResult
  writeErr : Option String

/-- One entry of the `sources` mapping (`filename` / `path` keys of
`identify_sources`), with its environment. -/
structure FileCase where
  filename : String
  path : String
  env : FileEnv

/-- Accumulated effect of a run: the `successful` / `failed` counters, the
logged events, the `time.sleep` delays, and the `(output name, table)` pairs
persisted by `to_parquet`. -/
structure RunResult where
  successful : Nat
  failed : Nat
  events : List Event
  sleeps : List Nat
  outputs : List (String × Table)
deriving DecidableEq, Repr

def emptyRun : RunResult := ⟨0, 0, [], [], []⟩

def RunResult.app (a b : RunResult) : RunResult :=
  ⟨a.successful + b.successful, a.failed + b.failed, a.events ++ b.events,
    a.sleeps ++ b.sleeps, a.outputs ++ b.outputs⟩

/-- The `PROCESSING_ERROR` logged by the `except` handler at lines 196-199. -/
def procErrEvent (file msg : String) : Event :=
  { stage := "RAW_LOADING", file := file, issueType := "PROCESSING_ERROR",
    details := "Unexpected error: " ++ msg, severity := "ERROR" }

/-- The body of the inner `for file_info in files` loop (lines 167-199):
extract with `max_retries=3`, validate, append audit columns, persist; any
exception is caught here, adds one failure and one `PROCESSING_ERROR`. -/
def processFile (department bid ts : String) (fc : FileCase) : RunResult :=
  let l := load_dataset fc.path fc.env.decode 3
  match l.1 with
  | ExtractResult.raised msg =>
      ⟨0, 1, l.2.1 ++ [procErrEvent fc.filename msg], l.2.2, []⟩
  | ExtractResult.noneReturned =>
      -- df is None: validation rejects it at the NULL_DATAFRAME check.  (The
      -- `true` branch is dead code: `first_validation` never passes `None`;
      -- were it reached, the audit-column assignment on `None` would raise.)
      let v := first_validation none fc.filename fc.path fc.env.fileExists fc.env.size
      if v.1 then
        ⟨0, 1, l.2.1 ++ v.2 ++
          [procErrEvent fc.filename "NoneType object has no attribute"], l.2.2, []⟩
      else ⟨0, 1, l.2.1 ++ v.2, l.2.2, []⟩
  | ExtractResult.ok t =>
      let v := first_validation (some t) fc.filename fc.path fc.env.fileExists fc.env.size
      if v.1 then
        let wt := bronzeAugment t ts bid department fc.filename
        let oname := standardize_filename fc.filename department
        match fc.env.writeErr with
        | none => ⟨1, 0, l.2.1 ++ v.2, l.2.2, [(oname, wt)]⟩
        | some m =>
            ⟨0, 1, l.2.1 ++ v.2 ++ [procErrEvent fc.filename m], l.2.2, []⟩
      else ⟨0, 1, l.2.1 ++ v.2, l.2.2, []⟩

/-- The inner loop over one department's files. -/
def processFiles (department bid ts : String) : List FileCase → RunResult
  | [] => emptyRun
  | fc :: rest =>
      RunResult.app (processFile department bid ts fc) (processFiles department bid ts rest)

/-- `raw_loading_zone(sources, bronze_folder, batch_id, ingest_ts)`:
the outer loop over departments.  `bid` and `ts` are the run-level batch id
and ingest timestamp generated once in `ingestion` (lines 208-209). -/
def raw_loading_zone (sources : List (String × List FileCase)) (bid ts : String) :
    RunResult :=
  match sources with
  | [] => emptyRun
  | (dept, files) :: rest =>
      RunResult.app (processFiles dept bid ts files) (raw_loading_zone rest bid ts)

/-! ## Source discovery

The directory tree under the source root is an explicit input.  `entries`
are the results of `os.listdir(raw_folder)` with their `os.path.isdir`
verdicts; `children` are the entries of a department directory with their
`os.path.isfile` verdicts and sizes. -/

structure ChildEntry where
  name : String
  isFile : Bool
  size : Nat
deriving DecidableEq, Repr

structure RootEntry where
  name : String
  isDir : Bool
  children : List ChildEntry
deriving DecidableEq, Repr

structure SourceRoot where
  rootExists : Bool
  entries : List RootEntry
deriving DecidableEq, Repr

/-- A source descriptor as built by either discovery function
(`filename` / `path` / `format` keys; `size_bytes` only in
`identify_sources`). -/
structure FileDesc where
  filename : String
  path : String
  format : String
  sizeBytes : Nat
deriving DecidableEq, Repr

def mkFileDesc (raw dept : String) (c : ChildEntry) : FileDesc :=
  { filename := c.name, path := raw ++ "/" ++ dept ++ "/" ++ c.name,
    format := extOf c.name, sizeBytes := c.size }

/-- `discover_sources(raw_folder)` (modded_bronzeval.py lines 39-65): a
missing root prints a `[CRITICAL ERROR]` message and returns `{}`; the
function never calls `log_validation`, so the event component is always
empty.  Departments whose file list is empty are dropped (line 63). -/
def discover_sources (raw : String) (fs : SourceRoot) :
    List (String × List FileDesc) × List Event :=
  if !fs.rootExists then ([], [])
  else
    (fs.entries.filterMap (fun d =>
        if !d.isDir then none
        else
          let dfiles := d.children.filterMap (fun c =>
            if c.isFile then some (mkFileDesc raw d.name c) else none)
          if dfiles.isEmpty then none else some (d.name, dfiles)),
      [])

/-- `identify_sources(raw_folder)` (ingest_to_bronze.py lines 29-64): no
existence check, so `os.listdir` on a missing root raises
`FileNotFoundError` to the caller.  Departments are kept even when empty
(line 43 assigns before the file loop). -/
def identify_sources (raw : String) (fs : SourceRoot) :
    Except String (List (String × List FileDesc)) :=
  if !fs.rootExists then
    Except.error ("FileNotFoundError: No such file or directory: " ++ raw)
  else
    Except.ok (fs.entries.filterMap (fun d =>
      if !d.isDir then none
      else some (d.name, d.children.filterMap (fun c =>
        if c.isFile then some (mkFileDesc raw d.name c) else none))))

/-! ## The modded-script extractor (`load_dataset`, modded_bronzeval.py
lines 70-93)

The claims about this variant concern the csv-delimiter choice, so the csv
reader is modelled concretely (header split on the delimiter, one column per
field); quoting and type inference are out of scope for those claims.  The
other format readers are abstracted by an oracle, and an unknown extension
raises `ValueError(f"Unknown type: ...")` immediately — there is no retry
loop in this variant. -/

/-- `needle` is a prefix of `hay`. -/
def isPrefixL : List Char → List Char → Bool
  | [], _ => true
  | _ :: _, [] => false
  | a :: as, b :: bs => a = b && isPrefixL as bs

/-- Python `needle in hay` substring containment. -/
def containsSub (hay needle : List Char) : Bool :=
  isPrefixL needle hay ||
    match hay with
    | [] => false
    | _ :: t => containsSub t needle

/-- Simplified `pd.read_csv(path, sep=delim)`: the first line is the header,
split on the delimiter; each later line supplies one row, its fields padded
with the empty string. -/
def read_csv (lines : List String) (delim : Char) : Table :=
  match lines with
  | [] => ⟨0, []⟩
  | header :: rows =>
      let names := (splitOnChar delim header.data).map (fun cs => String.mk cs)
      { nrows := rows.length,
        cols := names.enum.map (fun q =>
          (q.2, rows.map (fun r =>
            (((splitOnChar delim r.data).map (fun cs => String.mk cs)).getD q.1 "")))) }

inductive ModResult where
  | ok (t : Table)
  | raised (msg : String)
deriving DecidableEq, Repr

/-- `load_dataset(path)` of modded_bronzeval.py: `file_name =
os.path.basename(path).lower()`; a csv whose name contains `"campaign"` is
read with the tab separator, any other csv with the comma default; other
recognized formats are read by their pandas reader (abstracted as `oracle`);
anything else raises. -/
def load_dataset_mod (path : String) (lines : List String)
    (oracle : String → ModResult) : ModResult :=
  let ext := extOf path
  let fn := pyLower (basename path)
  if ext = "csv" then
    if containsSub fn.data "campaign".data then ModResult.ok (read_csv lines '\t')
    else ModResult.ok (read_csv lines ',')
  else if ext = "parquet" then oracle ext
  else if ext = "pickle" || ext = "pkl" then oracle ext
  else if ext = "xlsx" || ext = "xls" then oracle ext
  else if ext = "json" then oracle ext
  else if ext = "html" then oracle ext
  else ModResult.raised ("Unknown type: " ++ ext)

/-! ## Spec-side naming definitions for claim C7

`claimed_out_name` follows the claim's wording exactly (both parts
lower-cased, runs of whitespace, hyphens AND dots collapsed to one
underscore, `_bronze` tag, `.parquet` extension); `amended_out_name` is the
corrected rule, written with a differently-structured run-collapse so that
its agreement with the source function is a real equivalence. -/

/-- Modelled from the claim wording, for comparison with the source's
`modded_out_name`: lower-case both strings, collapse runs of whitespace,
hyphens and dots of BOTH the department and the extension-stripped base
name to a single underscore, join with `_`, append `_bronze.parquet`. -/
def claimed_out_name (department file : String) : String :=
  String.mk (collapseRuns whdMark false (department.data.map Char.toLower)) ++ "_"
    ++ String.mk (collapseRuns whdMark false ((splitextBase file.data).map Char.toLower))
    ++ "_bronze.parquet"

lemma dropWhile_length_le {α : Type} (p : α → Bool) (l : List α) :
    (l.dropWhile p).length ≤ l.length := by
  induction l with
  | nil => simp [List.dropWhile]
  | cons a as ih =>
    rw [List.dropWhile]
    by_cases h : p a
    · simp only [h]
      exact Nat.le_succ_of_le ih
    · simp [h]

/-- Run-collapse written in leading-run style (consume the whole run with
`dropWhile`), used by the amended naming rule. -/
def collapseRunsSpec (p : Char → Bool) : List Char → List Char
  | [] => []
  | c :: rest =>
    if p c then '_' :: collapseRunsSpec p (rest.dropWhile p)
    else c :: collapseRunsSpec p rest
termination_by l => l.length
decreasing_by
  · simp only [List.length_cons]
    exact Nat.lt_succ_of_le (dropWhile_length_le p rest)
  · simp

/-- The amended naming rule for claim C7: department merely lower-cased;
base name extension-stripped, lower-cased, with runs of whitespace and
hyphens (dots preserved) collapsed to one underscore; `_bronze.parquet`
appended. -/
def amended_out_name (department file : String) : String :=
  String.mk (department.data.map Char.toLower) ++ "_"
    ++ String.mk (collapseRunsSpec whMark ((splitextBase file.data).map Char.toLower))
    ++ "_bronze.parquet"

/-! # Helper lemmas -/

lemma setCol_nrows (t : Table) (n v : String) : (t.setCol n v).nrows = t.nrows := by
  unfold Table.setCol
  split <;> rfl

lemma names_map_replace (n : String) (nc : List String)
    (l : List (String × List String)) :
    (l.map (fun p => if p.1 = n then (n, nc) else p)).map Prod.fst = l.map Prod.fst := by
  induction l with
  | nil => rfl
  | cons a as ih =>
    by_cases h : a.1 = n <;> simp [h, ih]

lemma mem_colNames_setCol (t : Table) (n v c : String) :
    c ∈ (t.setCol n v).colNames ↔ c ∈ t.colNames ∨ c = n := by
  unfold Table.setCol Table.colNames
  split
  · rename_i hmem
    rw [names_map_replace]
    constructor
    · exact fun h => Or.inl h
    · rintro (h | rfl)
      · exact h
      · exact hmem
  · simp

lemma lookup_map_replace (n : String) (nc : List String)
    (l : List (String × List String)) (hmem : n ∈ l.map Prod.fst) :
    lookupCol n (l.map (fun p => if p.1 = n then (n, nc) else p)) = some nc := by
  induction l with
  | nil => simp at hmem
  | cons a as ih =>
    obtain ⟨k, w⟩ := a
    by_cases h : k = n
    · rw [List.map_cons]
      simp only [h, if_pos rfl]
      simp [lookupCol]
    · rw [List.map_cons]
      simp only [if_neg h]
      rw [lookupCol, if_neg h]
      apply ih
      simp only [List.map_cons, List.mem_cons] at hmem
      rcases hmem with hmem | hmem
      · exact absurd hmem.symm h
      · exact hmem

lemma lookup_map_replace_ne (n m : String) (nc : List String)
    (l : List (String × List String)) (hne : m ≠ n) :
    lookupCol m (l.map (fun p => if p.1 = n then (n, nc) else p)) = lookupCol m l := by
  induction l with
  | nil => rfl
  | cons a as ih =>
    obtain ⟨k, w⟩ := a
    rw [List.map_cons]
    by_cases h : k = n
    · simp only [h, if_pos rfl]
      rw [lookupCol, lookupCol, if_neg (fun hq => hne hq.symm),
        if_neg (fun hq => hne hq.symm)]
      exact ih
    · simp only [if_neg h]
      rw [lookupCol, lookupCol]
      by_cases h2 : k = m
      · rw [if_pos h2, if_pos h2]
      · rw [if_neg h2, if_neg h2]
        exact ih

lemma lookup_append_self (n : String) (nc : List String)
    (l : List (String × List String)) (hmem : n ∉ l.map Prod.fst) :
    lookupCol n (l ++ [(n, nc)]) = some nc := by
  induction l with
  | nil => simp [lookupCol]
  | cons a as ih =>
    obtain ⟨k, w⟩ := a
    simp only [List.map_cons, List.mem_cons, not_or] at hmem
    rw [List.cons_append, lookupCol, if_neg (fun hq => hmem.1 hq.symm)]
    exact ih hmem.2

lemma lookup_append_ne (n m : String) (nc : List String)
    (l : List (String × List String)) (hne : m ≠ n) :
    lookupCol m (l ++ [(n, nc)]) = lookupCol m l := by
  induction l with
  | nil =>
    simp only [List.nil_append, lookupCol]
    rw [if_neg (fun hq : n = m => hne hq.symm)]
  | cons a as ih =>
    obtain ⟨k, w⟩ := a
    rw [List.cons_append, lookupCol, lookupCol]
    by_cases h2 : k = m
    · rw [if_pos h2, if_pos h2]
    · rw [if_neg h2, if_neg h2]
      exact ih

lemma lookup_setCol_self (t : Table) (n v : String) :
    lookupCol n (t.setCol n v).cols = some (List.replicate t.nrows v) := by
  unfold Table.setCol
  split
  · rename_i hmem
    exact lookup_map_replace n _ t.cols (by exact hmem)
  · rename_i hmem
    exact lookup_append_self n _ t.cols (by exact hmem)

lemma lookup_setCol_ne (t : Table) (n m v : String) (hne : m ≠ n) :
    lookupCol m (t.setCol n v).cols = lookupCol m t.cols := by
  unfold Table.setCol
  split
  · exact lookup_map_replace_ne n m _ t.cols hne
  · exact lookup_append_ne n m _ t.cols hne

lemma bronzeAugment_nrows (t : Table) (ts bid dept fn : String) :
    (bronzeAugment t ts bid dept fn).nrows = t.nrows := by
  unfold bronzeAugment
  rw [setCol_nrows, setCol_nrows, setCol_nrows, setCol_nrows]

lemma bronzeAugment_colNames (t : Table) (ts bid dept fn c : String) :
    c ∈ (bronzeAugment t ts bid dept fn).colNames ↔
      c ∈ t.colNames ∨ c ∈ auditColumns := by
  unfold bronzeAugment auditColumns
  rw [mem_colNames_setCol, mem_colNames_setCol, mem_colNames_setCol, mem_colNames_setCol]
  simp only [List.mem_cons, List.mem_singleton]
  tauto

lemma bronzeAugment_lookups (t : Table) (ts bid dept fn : String) :
    lookupCol "ingest_ts" (bronzeAugment t ts bid dept fn).cols
        = some (List.replicate t.nrows ts)
    ∧ lookupCol "batch_id" (bronzeAugment t ts bid dept fn).cols
        = some (List.replicate t.nrows bid)
    ∧ lookupCol "source_department" (bronzeAugment t ts bid dept fn).cols
        = some (List.replicate t.nrows dept)
    ∧ lookupCol "source_filename" (bronzeAugment t ts bid dept fn).cols
        = some (List.replicate t.nrows fn) := by
  unfold bronzeAugment
  refine ⟨?_, ?_, ?_, ?_⟩
  · rw [lookup_setCol_ne _ _ _ _ (by decide), lookup_setCol_ne _ _ _ _ (by decide),
      lookup_setCol_ne _ _ _ _ (by decide), lookup_setCol_self]
  · rw [lookup_setCol_ne _ _ _ _ (by decide), lookup_setCol_ne _ _ _ _ (by decide)]
    rw [lookup_setCol_self, setCol_nrows]
  · rw [lookup_setCol_ne _ _ _ _ (by decide)]
    rw [lookup_setCol_self, setCol_nrows, setCol_nrows]
  · rw [lookup_setCol_self, setCol_nrows, setCol_nrows, setCol_nrows]

lemma first_validation_false_error (df : Option Table) (file path : String)
    (fexists : Bool) (size : Nat)
    (hf : (first_validation df file path fexists size).1 = false) :
    ∃ e, e ∈ (first_validation df file path fexists size).2 ∧ e.severity = "ERROR" := by
  unfold first_validation at hf ⊢
  by_cases hex : fexists
  · simp only [hex, Bool.not_true, Bool.false_eq_true, if_false] at hf ⊢
    by_cases hsz : size < 10
    · simp only [hsz, if_true]
      exact ⟨_, List.mem_singleton.mpr rfl, rfl⟩
    · simp only [hsz, if_false] at hf ⊢
      cases df with
      | none => exact ⟨_, List.mem_singleton.mpr rfl, rfl⟩
      | some t =>
        by_cases hnc : t.ncols = 0
        · simp only [hnc, if_true]
          refine ⟨fvEvent file "NO_COLUMNS" "DataFrame has no columns" "ERROR", ?_, rfl⟩
          exact List.mem_append.mpr (Or.inr (List.mem_singleton.mpr rfl))
        · simp only [hnc, if_false] at hf
          cases hf
  · simp only [hex, Bool.not_false, if_true]
    exact ⟨_, List.mem_singleton.mpr rfl, rfl⟩

lemma first_validation_none_false (file path : String) (fexists : Bool) (size : Nat) :
    (first_validation none file path fexists size).1 = false := by
  unfold first_validation
  by_cases hex : fexists
  · by_cases hsz : size < 10 <;> simp [hex, hsz]
  · simp [hex]

lemma RunResult.app_assoc (a b c : RunResult) :
    RunResult.app (RunResult.app a b) c = RunResult.app a (RunResult.app b c) := by
  simp [RunResult.app, Nat.add_assoc, List.append_assoc]

lemma RunResult.app_empty (a : RunResult) : RunResult.app a emptyRun = a := by
  simp [RunResult.app, emptyRun]

lemma RunResult.empty_app (a : RunResult) : RunResult.app emptyRun a = a := by
  simp [RunResult.app, emptyRun]

lemma raw_loading_zone_append (a b : List (String × List FileCase)) (bid ts : String) :
    raw_loading_zone (a ++ b) bid ts
      = RunResult.app (raw_loading_zone a bid ts) (raw_loading_zone b bid ts) := by
  induction a with
  | nil => rw [List.nil_append, raw_loading_zone, RunResult.empty_app]
  | cons d rest ih =>
    obtain ⟨dept, files⟩ := d
    rw [List.cons_append, raw_loading_zone, raw_loading_zone, ih, RunResult.app_assoc]


lemma processFile_counts (dept bid ts : String) (fc : FileCase) :
    (processFile dept bid ts fc).successful + (processFile dept bid ts fc).failed = 1 := by
  simp only [processFile]
  cases hres : (load_dataset fc.path fc.env.decode 3).1 with
  | ok t =>
    by_cases hv : (first_validation (some t) fc.filename fc.path fc.env.fileExists
        fc.env.size).1 = true
    · simp only [if_pos hv]
      cases hw : fc.env.writeErr <;> rfl
    · simp only [if_neg hv]
  | raised msg => rfl
  | noneReturned =>
    by_cases hv : (first_validation none fc.filename fc.path fc.env.fileExists
        fc.env.size).1 = true
    · simp only [if_pos hv]
    · simp only [if_neg hv]

lemma processFile_succ_or_error (dept bid ts : String) (fc : FileCase) :
    (processFile dept bid ts fc).successful = 1
    ∨ ∃ e, e ∈ (processFile dept bid ts fc).events ∧ e.severity = "ERROR" := by
  simp only [processFile]
  cases hres : (load_dataset fc.path fc.env.decode 3).1 with
  | ok t =>
    by_cases hv : (first_validation (some t) fc.filename fc.path fc.env.fileExists
        fc.env.size).1 = true
    · simp only [if_pos hv]
      cases hw : fc.env.writeErr with
      | none => exact Or.inl rfl
      | some m =>
        refine Or.inr ⟨procErrEvent fc.filename m, ?_, rfl⟩
        simp
    · simp only [if_neg hv]
      have hv' : (first_validation (some t) fc.filename fc.path fc.env.fileExists
          fc.env.size).1 = false := by
        cases hb : (first_validation (some t) fc.filename fc.path fc.env.fileExists
            fc.env.size).1
        · rfl
        · exact absurd hb hv
      obtain ⟨e, hmem, hsev⟩ := first_validation_false_error _ _ _ _ _ hv'
      exact Or.inr ⟨e, by simp [hmem], hsev⟩
  | raised msg =>
    refine Or.inr ⟨procErrEvent fc.filename msg, ?_, rfl⟩
    simp
  | noneReturned =>
    by_cases hv : (first_validation none fc.filename fc.path fc.env.fileExists
        fc.env.size).1 = true
    · exact absurd hv (by rw [first_validation_none_false]; exact Bool.false_ne_true)
    · simp only [if_neg hv]
      have hv' := first_validation_none_false fc.filename fc.path fc.env.fileExists fc.env.size
      obtain ⟨e, hmem, hsev⟩ := first_validation_false_error _ _ _ _ _ hv'
      exact Or.inr ⟨e, by simp [hmem], hsev⟩

lemma processFile_failed_error (dept bid ts : String) (fc : FileCase)
    (hfail : (processFile dept bid ts fc).successful = 0) :
    (processFile dept bid ts fc).failed = 1
    ∧ ∃ e, e ∈ (processFile dept bid ts fc).events ∧ e.severity = "ERROR" := by
  have hcount := processFile_counts dept bid ts fc
  rw [hfail, Nat.zero_add] at hcount
  refine ⟨hcount, ?_⟩
  rcases processFile_succ_or_error dept bid ts fc with h | h
  · rw [hfail] at h
    cases h
  · exact h

lemma collapseRuns_true_dropWhile (p : Char → Bool) (l : List Char) :
    collapseRuns p true l = collapseRuns p false (l.dropWhile p) := by
  induction l with
  | nil => rfl
  | cons c rest ih =>
    by_cases h : p c
    · rw [List.dropWhile_cons_of_pos h]
      rw [collapseRuns, if_pos h, if_pos rfl]
      exact ih
    · rw [List.dropWhile_cons_of_neg h]
      simp [collapseRuns, h]

lemma collapseRuns_eq_spec_aux (p : Char → Bool) :
    ∀ n (l : List Char), l.length ≤ n → collapseRuns p false l = collapseRunsSpec p l := by
  intro n
  induction n with
  | zero =>
    intro l hl
    have : l = [] := List.eq_nil_of_length_eq_zero (Nat.le_zero.mp hl)
    rw [this]
    simp [collapseRuns, collapseRunsSpec]
  | succ m ih =>
    intro l hl
    cases l with
    | nil => simp [collapseRuns, collapseRunsSpec]
    | cons c rest =>
      rw [List.length_cons, Nat.succ_le_succ_iff] at hl
      by_cases h : p c
      · rw [collapseRuns, if_pos h, if_neg (by exact Bool.false_ne_true),
          collapseRuns_true_dropWhile, collapseRunsSpec, if_pos h]
        exact congrArg _ (ih _ (Nat.le_trans (dropWhile_length_le p rest) hl))
      · rw [collapseRuns, if_neg h, collapseRunsSpec, if_neg h]
        exact congrArg _ (ih _ hl)

lemma collapseRuns_eq_spec (p : Char → Bool) (l : List Char) :
    collapseRuns p false l = collapseRunsSpec p l :=
  collapseRuns_eq_spec_aux p l.length l (Nat.le_refl _)

lemma splitOnChar_ne_nil (d : Char) (l : List Char) : splitOnChar d l ≠ [] := by
  cases l with
  | nil => simp [splitOnChar]
  | cons c rest =>
    rw [splitOnChar]
    by_cases h : c = d
    · simp [h]
    · simp only [if_neg h]
      cases hs : splitOnChar d rest <;> simp

lemma splitOnChar_length (d : Char) (l : List Char) :
    (splitOnChar d l).length = l.count d + 1 := by
  induction l with
  | nil => rfl
  | cons c rest ih =>
    rw [splitOnChar]
    by_cases h : c = d
    · simp only [if_pos h, List.length_cons, ih, List.count_cons]
      simp [h]
    · simp only [if_neg h]
      cases hs : splitOnChar d rest with
      | nil => exact absurd hs (splitOnChar_ne_nil d rest)
      | cons hd tl =>
        rw [hs] at ih
        simp only [List.length_cons] at ih ⊢
        rw [ih, List.count_cons]
        simp [h]

lemma read_csv_ncols (header : String) (rows : List String) (d : Char) :
    (read_csv (header :: rows) d).ncols = header.data.count d + 1 := by
  simp [read_csv, Table.ncols, List.enum_length, splitOnChar_length]

lemma load_go_all_fail (path : String) (decode : Nat → DecodeResult) (mr : Int)
    (msg : String)
    (hall : ∀ i, attemptDecode (extOf path) decode i = DecodeResult.err msg) :
    ∀ (len k : Nat), 1 ≤ len → ((k : Int) + (len : Int)) = mr →
    load_go path decode mr (List.range' k len)
      = (ExtractResult.raised msg,
         (List.range' k (len - 1)).map
             (fun i => retryEvent (basename path) i mr msg (2 ^ i))
           ++ [failedEvent (basename path) mr msg],
         (List.range' k (len - 1)).map (fun i => 2 ^ i)) := by
  intro len
  induction len with
  | zero =>
    intro k h1 _
    exact absurd h1 (by omega)
  | succ m ih =>
    intro k _ hk
    cases m with
    | zero =>
      rw [List.range'_succ, load_go]
      simp only [hall k]
      rw [if_neg (by omega : ¬((k : Int) < mr - 1))]
      simp [List.range']
    | succ m2 =>
      rw [List.range'_succ, load_go]
      simp only [hall k]
      rw [if_pos (by omega : ((k : Int) < mr - 1))]
      rw [ih (k + 1) (by omega) (by push_cast at hk ⊢; omega)]
      simp only [Nat.succ_sub_one]
      rw [List.range'_succ]
      simp [List.cons_append]

lemma first_validation_some_pass (t : Table) (f p : String) (size : Nat)
    (hsz : 10 ≤ size) (hnc : t.ncols ≠ 0) :
    (first_validation (some t) f p true size).1 = true := by
  simp [first_validation, Nat.not_lt.mpr hsz, hnc]

lemma first_validation_nocols (t : Table) (f p : String) (size : Nat)
    (hsz : 10 ≤ size) (h0 : t.ncols = 0) :
    first_validation (some t) f p true size
      = (false, [fvEvent f "EMPTY_DATAFRAME" "DataFrame has no rows" "WARNING",
                 fvEvent f "NO_COLUMNS" "DataFrame has no columns" "ERROR"]) := by
  simp [first_validation, Table.isEmpty, h0, Nat.not_lt.mpr hsz]

lemma first_validation_emptyrows (t : Table) (f p : String) (size : Nat)
    (hsz : 10 ≤ size) (hr : t.nrows = 0) (hnc : t.ncols ≠ 0) :
    first_validation (some t) f p true size
      = (true, [fvEvent f "EMPTY_DATAFRAME" "DataFrame has no rows" "WARNING"]) := by
  simp [first_validation, Table.isEmpty, hr, hnc, Nat.not_lt.mpr hsz]

lemma load_dataset_first_ok (path : String) (decode : Nat → DecodeResult) (t : Table)
    (hsup : supportedExts.contains (extOf path) = true)
    (h0 : decode 0 = DecodeResult.ok t) :
    load_dataset path decode 3 = (ExtractResult.ok t, [], []) := by
  have hmem : extOf path ∈ supportedExts := List.mem_of_elem_eq_true hsup
  show load_go path decode 3 [0, 1, 2] = _
  rw [load_go]
  simp [attemptDecode, hmem, h0]

lemma processFile_ok_valid (dept bid ts : String) (fc : FileCase) (t : Table)
    (hld : load_dataset fc.path fc.env.decode 3 = (ExtractResult.ok t, [], []))
    (hvt : (first_validation (some t) fc.filename fc.path fc.env.fileExists
        fc.env.size).1 = true)
    (hw : fc.env.writeErr = none) :
    processFile dept bid ts fc
      = ⟨1, 0,
         (first_validation (some t) fc.filename fc.path fc.env.fileExists fc.env.size).2,
         [],
         [(standardize_filename fc.filename dept,
           bronzeAugment t ts bid dept fc.filename)]⟩ := by
  simp only [processFile, hld]
  rw [if_pos hvt, hw]
  simp

lemma processFile_ok_invalid (dept bid ts : String) (fc : FileCase) (t : Table)
    (hld : load_dataset fc.path fc.env.decode 3 = (ExtractResult.ok t, [], []))
    (hvf : (first_validation (some t) fc.filename fc.path fc.env.fileExists
        fc.env.size).1 = false) :
    processFile dept bid ts fc
      = ⟨0, 1,
         (first_validation (some t) fc.filename fc.path fc.env.fileExists fc.env.size).2,
         [], []⟩ := by
  simp only [processFile, hld]
  rw [if_neg (by rw [hvf]; exact Bool.false_ne_true)]
  simp

/-! # Claim theorems -/

/-- C1: for a source that extracts successfully and passes validation, the
table the BronzeWriter persists has the source's row count, its column set
is the source's columns together with exactly the four audit columns
`ingest_ts`, `batch_id`, `source_department`, `source_filename`, and each
audit column holds the run-level batch-context / descriptor value broadcast
unchanged to every row. -/
theorem claim1_bronze_writer_audit (dept bid ts : String) (fc : FileCase) (t : Table)
    (hsup : supportedExts.contains (extOf fc.path) = true)
    (h0 : fc.env.decode 0 = DecodeResult.ok t)
    (hex : fc.env.fileExists = true)
    (hsz : 10 ≤ fc.env.size)
    (hnc : t.ncols ≠ 0)
    (hw : fc.env.writeErr = none) :
    (processFile dept bid ts fc).outputs
        = [(standardize_filename fc.filename dept,
            bronzeAugment t ts bid dept fc.filename)]
    ∧ (processFile dept bid ts fc).successful = 1
    ∧ (bronzeAugment t ts bid dept fc.filename).nrows = t.nrows
    ∧ (∀ c, c ∈ (bronzeAugment t ts bid dept fc.filename).colNames ↔
        (c ∈ t.colNames ∨ c ∈ auditColumns))
    ∧ lookupCol "ingest_ts" (bronzeAugment t ts bid dept fc.filename).cols
        = some (List.replicate t.nrows ts)
    ∧ lookupCol "batch_id" (bronzeAugment t ts bid dept fc.filename).cols
        = some (List.replicate t.nrows bid)
    ∧ lookupCol "source_department" (bronzeAugment t ts bid dept fc.filename).cols
        = some (List.replicate t.nrows dept)
    ∧ lookupCol "source_filename" (bronzeAugment t ts bid dept fc.filename).cols
        = some (List.replicate t.nrows fc.filename) := by
  have hld := load_dataset_first_ok fc.path fc.env.decode t hsup h0
  have hvt : (first_validation (some t) fc.filename fc.path fc.env.fileExists
      fc.env.size).1 = true := by
    rw [hex]
    exact first_validation_some_pass t fc.filename fc.path fc.env.size hsz hnc
  have hpf := processFile_ok_valid dept bid ts fc t hld hvt hw
  obtain ⟨hts, hbid, hdept, hfn⟩ := bronzeAugment_lookups t ts bid dept fc.filename
  exact ⟨by rw [hpf], by rw [hpf], bronzeAugment_nrows t ts bid dept fc.filename,
    fun c => bronzeAugment_colNames t ts bid dept fc.filename c, hts, hbid, hdept, hfn⟩

def tblC1 : Table := ⟨2, [("amount", ["10", "20"])]⟩

def fcC1 : FileCase :=
  { filename := "Q1 Report.csv", path := "src/Sales/Q1 Report.csv",
    env := { fileExists := true, size := 100,
             decode := fun _ => DecodeResult.ok tblC1,
             writeErr := none } }

theorem claim1_bronze_writer_audit_witness :
    (processFile "Sales" "B42" "2025-01-01T00:00:00" fcC1).outputs
      = [("sales_q1_report.parquet",
          bronzeAugment tblC1 "2025-01-01T00:00:00" "B42" "Sales" "Q1 Report.csv")]
    ∧ (processFile "Sales" "B42" "2025-01-01T00:00:00" fcC1).successful = 1
    ∧ (bronzeAugment tblC1 "2025-01-01T00:00:00" "B42" "Sales" "Q1 Report.csv").nrows = 2
    ∧ lookupCol "batch_id"
        (bronzeAugment tblC1 "2025-01-01T00:00:00" "B42" "Sales" "Q1 Report.csv").cols
      = some ["B42", "B42"] := by
  have h := claim1_bronze_writer_audit "Sales" "B42" "2025-01-01T00:00:00" fcC1 tblC1
    (by decide) rfl rfl (by decide) (by decide) rfl
  exact ⟨h.1, h.2.1, h.2.2.1, h.2.2.2.2.2.1⟩

/-- C4: an extracted table with zero columns (source present and at least
the size threshold) fails validation carrying exactly one `NO_COLUMNS`
ERROR, is counted as a failure, and produces no output file.  (The zero-row
warning `EMPTY_DATAFRAME` also fires, since a column-less DataFrame is
`empty`; the `NO_COLUMNS` ERROR itself occurs exactly once.) -/
theorem claim4_no_columns_rejected (dept bid ts : String) (fc : FileCase) (t : Table)
    (hsup : supportedExts.contains (extOf fc.path) = true)
    (h0 : fc.env.decode 0 = DecodeResult.ok t)
    (hex : fc.env.fileExists = true)
    (hsz : 10 ≤ fc.env.size)
    (hnc : t.ncols = 0) :
    (first_validation (some t) fc.filename fc.path fc.env.fileExists fc.env.size).1
        = false
    ∧ ((first_validation (some t) fc.filename fc.path fc.env.fileExists
          fc.env.size).2.filter
        (fun e => e.issueType == "NO_COLUMNS" && e.severity == "ERROR")).length = 1
    ∧ (processFile dept bid ts fc).failed = 1
    ∧ (processFile dept bid ts fc).outputs = [] := by
  have hld := load_dataset_first_ok fc.path fc.env.decode t hsup h0
  have hveq : first_validation (some t) fc.filename fc.path fc.env.fileExists fc.env.size
      = (false, [fvEvent fc.filename "EMPTY_DATAFRAME" "DataFrame has no rows" "WARNING",
                 fvEvent fc.filename "NO_COLUMNS" "DataFrame has no columns" "ERROR"]) := by
    rw [hex]
    exact first_validation_nocols t fc.filename fc.path fc.env.size hsz hnc
  have hpf := processFile_ok_invalid dept bid ts fc t hld (by rw [hveq])
  refine ⟨by rw [hveq], ?_, by rw [hpf], by rw [hpf]⟩
  rw [hveq]
  rfl

def tblC4 : Table := ⟨0, []⟩

def fcC4 : FileCase :=
  { filename := "empty.html", path := "src/Ops/empty.html",
    env := { fileExists := true, size := 64,
             decode := fun _ => DecodeResult.ok tblC4,
             writeErr := none } }

theorem claim4_no_columns_rejected_witness :
    (first_validation (some tblC4) "empty.html" "src/Ops/empty.html" true 64).1 = false
    ∧ (processFile "Ops" "B42" "T0" fcC4).failed = 1
    ∧ (processFile "Ops" "B42" "T0" fcC4).outputs = [] := by
  have h := claim4_no_columns_rejected "Ops" "B42" "T0" fcC4 tblC4
    (by decide) rfl rfl (by decide) rfl
  exact ⟨h.1, h.2.2.1, h.2.2.2⟩

/-- C5: an extracted table with zero rows and at least one column (source
present and above the size threshold) passes validation with exactly one
`EMPTY_DATAFRAME` WARNING — the event the spec calls `EMPTY_TABLE` — and
proceeds to the BronzeWriter, which persists it. -/
theorem claim5_empty_table_proceeds (dept bid ts : String) (fc : FileCase) (t : Table)
    (hsup : supportedExts.contains (extOf fc.path) = true)
    (h0 : fc.env.decode 0 = DecodeResult.ok t)
    (hex : fc.env.fileExists = true)
    (hsz : 10 ≤ fc.env.size)
    (hr : t.nrows = 0)
    (hnc : t.ncols ≠ 0)
    (hw : fc.env.writeErr = none) :
    first_validation (some t) fc.filename fc.path fc.env.fileExists fc.env.size
        = (true, [fvEvent fc.filename "EMPTY_DATAFRAME" "DataFrame has no rows" "WARNING"])
    ∧ (processFile dept bid ts fc).successful = 1
    ∧ (processFile dept bid ts fc).events
        = [fvEvent fc.filename "EMPTY_DATAFRAME" "DataFrame has no rows" "WARNING"]
    ∧ (processFile dept bid ts fc).outputs
        = [(standardize_filename fc.filename dept,
            bronzeAugment t ts bid dept fc.filename)] := by
  have hld := load_dataset_first_ok fc.path fc.env.decode t hsup h0
  have hveq : first_validation (some t) fc.filename fc.path fc.env.fileExists fc.env.size
      = (true, [fvEvent fc.filename "EMPTY_DATAFRAME" "DataFrame has no rows" "WARNING"]) := by
    rw [hex]
    exact first_validation_emptyrows t fc.filename fc.path fc.env.size hsz hr hnc
  have hpf := processFile_ok_valid dept bid ts fc t hld (by rw [hveq]) hw
  refine ⟨hveq, by rw [hpf], ?_, by rw [hpf]⟩
  rw [hpf, hveq]

def tblC5 : Table := ⟨0, [("sku", []), ("qty", [])]⟩

def fcC5 : FileCase :=
  { filename := "stock.csv", path := "src/Ops/stock.csv",
    env := { fileExists := true, size := 32,
             decode := fun _ => DecodeResult.ok tblC5,
             writeErr := none } }

theorem claim5_empty_table_proceeds_witness :
    first_validation (some tblC5) "stock.csv" "src/Ops/stock.csv" true 32
      = (true, [fvEvent "stock.csv" "EMPTY_DATAFRAME" "DataFrame has no rows" "WARNING"])
    ∧ (processFile "Ops" "B42" "T0" fcC5).successful = 1
    ∧ (processFile "Ops" "B42" "T0" fcC5).outputs
      = [("ops_stock.parquet", bronzeAugment tblC5 "T0" "B42" "Ops" "stock.csv")] := by
  have h := claim5_empty_table_proceeds "Ops" "B42" "T0" fcC5 tblC5
    (by decide) rfl rfl (by decide) rfl (by decide) rfl
  exact ⟨h.1, h.2.1, h.2.2.2⟩

/-- C2: a decode that fails on attempts 0 and 1 produces one RETRY_EXTRACT
WARNING per retry (carrying the attempt number in its details) and sleeps
the exponential-backoff delays 2^0 = 1 and 2^1 = 2; if attempt 2 succeeds,
the table is returned with exactly two RETRY_EXTRACT warnings and zero
EXTRACTION_FAILED events, and if attempt 2 also fails, exactly one
EXTRACTION_FAILED ERROR is logged and the exception is re-raised. -/
theorem claim2_retry_backoff (path : String) (decode : Nat → DecodeResult) (m0 m1 : String)
    (hsup : supportedExts.contains (extOf path) = true)
    (h0 : decode 0 = DecodeResult.err m0)
    (h1 : decode 1 = DecodeResult.err m1) :
    (∀ t : Table, decode 2 = DecodeResult.ok t →
      load_dataset path decode 3
        = (ExtractResult.ok t,
           [retryEvent (basename path) 0 3 m0 1, retryEvent (basename path) 1 3 m1 2],
           [1, 2])
      ∧ ((load_dataset path decode 3).2.1.filter
            (fun e => e.issueType == "RETRY_EXTRACT" && e.severity == "WARNING")).length = 2
      ∧ ((load_dataset path decode 3).2.1.filter
            (fun e => e.issueType == "EXTRACTION_FAILED")).length = 0)
    ∧ (∀ m2 : String, decode 2 = DecodeResult.err m2 →
      load_dataset path decode 3
        = (ExtractResult.raised m2,
           [retryEvent (basename path) 0 3 m0 1, retryEvent (basename path) 1 3 m1 2,
            failedEvent (basename path) 3 m2],
           [1, 2])
      ∧ ((load_dataset path decode 3).2.1.filter
            (fun e => e.issueType == "RETRY_EXTRACT" && e.severity == "WARNING")).length = 2
      ∧ ((load_dataset path decode 3).2.1.filter
            (fun e => e.issueType == "EXTRACTION_FAILED" && e.severity == "ERROR")).length
          = 1) := by
  have hmem : extOf path ∈ supportedExts := List.mem_of_elem_eq_true hsup
  constructor
  · intro t ht
    have heq : load_dataset path decode 3
        = (ExtractResult.ok t,
           [retryEvent (basename path) 0 3 m0 1, retryEvent (basename path) 1 3 m1 2],
           [1, 2]) := by
      show load_go path decode 3 [0, 1, 2] = _
      simp only [load_go, attemptDecode, hsup, h0, h1, ht, if_true, eq_self_iff_true]
      norm_num
    refine ⟨heq, ?_, ?_⟩ <;> rw [heq] <;> rfl
  · intro m2 ht
    have heq : load_dataset path decode 3
        = (ExtractResult.raised m2,
           [retryEvent (basename path) 0 3 m0 1, retryEvent (basename path) 1 3 m1 2,
            failedEvent (basename path) 3 m2],
           [1, 2]) := by
      show load_go path decode 3 [0, 1, 2] = _
      simp only [load_go, attemptDecode, hsup, h0, h1, ht, if_true, eq_self_iff_true]
      norm_num
    refine ⟨heq, ?_, ?_⟩ <;> rw [heq] <;> rfl

def tblC2 : Table := ⟨1, [("x", ["1"])]⟩

def decC2a : Nat → DecodeResult
  | 0 => DecodeResult.err "e0"
  | 1 => DecodeResult.err "e1"
  | _ => DecodeResult.ok tblC2

def decC2b : Nat → DecodeResult
  | 0 => DecodeResult.err "e0"
  | 1 => DecodeResult.err "e1"
  | _ => DecodeResult.err "e2"

theorem claim2_retry_backoff_witness :
    load_dataset "d/a.csv" decC2a 3
      = (ExtractResult.ok tblC2,
         [retryEvent "a.csv" 0 3 "e0" 1, retryEvent "a.csv" 1 3 "e1" 2], [1, 2])
    ∧ load_dataset "d/a.csv" decC2b 3
      = (ExtractResult.raised "e2",
         [retryEvent "a.csv" 0 3 "e0" 1, retryEvent "a.csv" 1 3 "e1" 2,
          failedEvent "a.csv" 3 "e2"], [1, 2]) := by
  constructor
  · exact ((claim2_retry_backoff "d/a.csv" decC2a "e0" "e1" (by decide) rfl rfl).1 tblC2 rfl).1
  · exact ((claim2_retry_backoff "d/a.csv" decC2b "e0" "e1" (by decide) rfl rfl).2 "e2" rfl).1

/-- C10: calling `load_dataset` with `max_retries ≤ 0` runs no attempt (no
event, no sleep, no exception) and falls through to Python's implicit
`None` return; the `None` is rejected only downstream, at
`first_validation`'s `NULL_DATAFRAME` check. -/
theorem claim10_nonpositive_retries (path : String) (decode : Nat → DecodeResult)
    (mr : Int) (f p2 : String) (size : Nat)
    (hmr : mr ≤ 0) (hsz : 10 ≤ size) :
    load_dataset path decode mr = (ExtractResult.noneReturned, [], [])
    ∧ first_validation none f p2 true size
      = (false, [fvEvent f "NULL_DATAFRAME" "Extraction returned None" "ERROR"]) := by
  constructor
  · rw [load_dataset, pyRange, Int.toNat_of_nonpos hmr]
    rfl
  · simp [first_validation, Nat.not_lt.mpr hsz]

theorem claim10_nonpositive_retries_witness :
    load_dataset "x.csv" (fun _ => DecodeResult.err "nope") (-1)
      = (ExtractResult.noneReturned, [], [])
    ∧ first_validation none "x.csv" "src/x.csv" true 10
      = (false, [fvEvent "x.csv" "NULL_DATAFRAME" "Extraction returned None" "ERROR"]) :=
  claim10_nonpositive_retries "x.csv" (fun _ => DecodeResult.err "nope") (-1)
    "x.csv" "src/x.csv" 10 (by decide) (by decide)

/-- C3: a failure of any stage while processing one file is confined to that
file: the whole-batch run decomposes as the runs before, on, and after the
file (so the remaining files are processed exactly as they would be alone),
the failing file adds exactly one to the failure counter, an ERROR event is
logged for it, and when none of its stage events is an ERROR besides
`PROCESSING_ERROR`, a `PROCESSING_ERROR` ERROR is present. -/
theorem claim3_failure_isolated (pre post : List (String × List FileCase))
    (dept bid ts : String) (fc : FileCase)
    (hfail : (processFile dept bid ts fc).successful = 0) :
    raw_loading_zone (pre ++ (dept, [fc]) :: post) bid ts
      = RunResult.app (raw_loading_zone pre bid ts)
          (RunResult.app (processFile dept bid ts fc) (raw_loading_zone post bid ts))
    ∧ (processFile dept bid ts fc).failed = 1
    ∧ (∃ e, e ∈ (processFile dept bid ts fc).events ∧ e.severity = "ERROR")
    ∧ ((¬ ∃ e, e ∈ (processFile dept bid ts fc).events ∧ e.severity = "ERROR"
          ∧ e.issueType ≠ "PROCESSING_ERROR") →
        ∃ e, e ∈ (processFile dept bid ts fc).events ∧ e.severity = "ERROR"
          ∧ e.issueType = "PROCESSING_ERROR") := by
  obtain ⟨hcnt, e, hmem, hsev⟩ := processFile_failed_error dept bid ts fc hfail
  refine ⟨?_, hcnt, ⟨e, hmem, hsev⟩, ?_⟩
  · rw [raw_loading_zone_append]
    rw [show raw_loading_zone ((dept, [fc]) :: post) bid ts
        = RunResult.app (processFiles dept bid ts [fc]) (raw_loading_zone post bid ts)
      from rfl]
    rw [show processFiles dept bid ts [fc]
        = RunResult.app (processFile dept bid ts fc) emptyRun from rfl]
    rw [RunResult.app_empty]
  · intro hno
    by_cases hpe : e.issueType = "PROCESSING_ERROR"
    · exact ⟨e, hmem, hsev, hpe⟩
    · exact absurd ⟨e, hmem, hsev, hpe⟩ hno

def fcC3 : FileCase :=
  { filename := "notes.docx", path := "src/HR/notes.docx",
    env := { fileExists := true, size := 500,
             decode := fun _ => DecodeResult.ok tblC2,
             writeErr := none } }

theorem claim3_failure_isolated_witness :
    raw_loading_zone ([("Sales", [fcC1])] ++ ("HR", [fcC3]) :: [("Ops", [fcC5])]) "B" "T"
      = RunResult.app (raw_loading_zone [("Sales", [fcC1])] "B" "T")
          (RunResult.app (processFile "HR" "B" "T" fcC3)
            (raw_loading_zone [("Ops", [fcC5])] "B" "T"))
    ∧ (processFile "HR" "B" "T" fcC3).failed = 1 := by
  have h := claim3_failure_isolated [("Sales", [fcC1])] [("Ops", [fcC5])]
    "HR" "B" "T" fcC3 (by decide)
  exact ⟨h.1, h.2.1⟩

lemma filter_length_map_all {β : Type} (p : β → Bool) (f : Nat → β) (l : List Nat)
    (hall : ∀ i, p (f i) = true) :
    (List.filter p (List.map f l)).length = l.length := by
  induction l with
  | nil => rfl
  | cons a as ih => simp [List.filter_cons, hall a, ih]

lemma filter_length_map_none {β : Type} (p : β → Bool) (f : Nat → β) (l : List Nat)
    (hall : ∀ i, p (f i) = false) :
    (List.filter p (List.map f l)).length = 0 := by
  induction l with
  | nil => rfl
  | cons a as ih => simp [List.filter_cons, hall a, ih]

/-- C8 (counterexample): with the default three attempts, an unrecognized
format tag (`txt`) is retried like any failure — two backoff sleeps of 1 and
2 seconds and two RETRY_EXTRACT warnings happen before the error is
re-raised — contradicting the claim that an unsupported format fails
immediately with no retry attempt and no backoff delay. -/
theorem claim8_counterexample :
    (load_dataset "ops/data.txt" (fun _ => DecodeResult.ok tblC2) 3).2.2 = [1, 2]
    ∧ ((load_dataset "ops/data.txt" (fun _ => DecodeResult.ok tblC2) 3).2.1.filter
        (fun e => e.issueType == "RETRY_EXTRACT")).length = 2
    ∧ (load_dataset "ops/data.txt" (fun _ => DecodeResult.ok tblC2) 3).1
      = ExtractResult.raised "Unsupported file type: txt" := by
  decide

/-- C8 (amended): an unrecognized format tag makes every attempt raise the
unsupported-format `ValueError`, and the retrying extractor treats it like
any failure: with `max_retries = mr ≥ 1` it performs all `mr` attempts,
sleeping `2^attempt` and logging one RETRY_EXTRACT WARNING for each of the
first `mr - 1`, then logs one EXTRACTION_FAILED ERROR and re-raises.  (The
non-retrying variant in modded_bronzeval.py raises immediately.) -/
theorem claim8_amended_unsupported_retried (path : String) (decode : Nat → DecodeResult)
    (mr : Int)
    (hunsup : supportedExts.contains (extOf path) = false)
    (hmr : 1 ≤ mr) :
    load_dataset path decode mr
      = (ExtractResult.raised ("Unsupported file type: " ++ extOf path),
         (List.range (mr.toNat - 1)).map
             (fun i => retryEvent (basename path) i mr
               ("Unsupported file type: " ++ extOf path) (2 ^ i))
           ++ [failedEvent (basename path) mr ("Unsupported file type: " ++ extOf path)],
         (List.range (mr.toNat - 1)).map (fun i => 2 ^ i))
    ∧ ((load_dataset path decode mr).2.1.filter
        (fun e => e.issueType == "RETRY_EXTRACT")).length = mr.toNat - 1
    ∧ ((load_dataset path decode mr).2.1.filter
        (fun e => e.issueType == "EXTRACTION_FAILED" && e.severity == "ERROR")).length
      = 1 := by
  have hall : ∀ i, attemptDecode (extOf path) decode i
      = DecodeResult.err ("Unsupported file type: " ++ extOf path) := by
    intro i
    have hnm : extOf path ∉ supportedExts := fun hm => by
      have he := List.elem_eq_true_of_mem hm
      rw [show supportedExts.elem (extOf path)
          = supportedExts.contains (extOf path) from rfl, hunsup] at he
      cases he
    simp [attemptDecode, hnm]
  have hld : load_dataset path decode mr
      = (ExtractResult.raised ("Unsupported file type: " ++ extOf path),
         (List.range' 0 (mr.toNat - 1)).map
             (fun i => retryEvent (basename path) i mr
               ("Unsupported file type: " ++ extOf path) (2 ^ i))
           ++ [failedEvent (basename path) mr ("Unsupported file type: " ++ extOf path)],
         (List.range' 0 (mr.toNat - 1)).map (fun i => 2 ^ i)) := by
    rw [load_dataset, pyRange, List.range_eq_range']
    exact load_go_all_fail path decode mr _ hall mr.toNat 0 (by omega) (by omega)
  rw [List.range_eq_range']
  refine ⟨hld, ?_, ?_⟩
  · rw [hld]
    show ((((List.range' 0 (mr.toNat - 1)).map _) ++ _).filter _).length = _
    rw [List.filter_append, List.length_append,
      filter_length_map_all _ _ _ (fun i => rfl), List.length_range']
    rfl
  · rw [hld]
    show ((((List.range' 0 (mr.toNat - 1)).map _) ++ _).filter _).length = _
    rw [List.filter_append, List.length_append,
      filter_length_map_none _ _ _ (fun i => rfl)]
    rfl

theorem claim8_amended_unsupported_retried_witness :
    load_dataset "ops/data.docx" (fun _ => DecodeResult.ok tblC2) 3
      = (ExtractResult.raised "Unsupported file type: docx",
         [retryEvent "data.docx" 0 3 "Unsupported file type: docx" 1,
          retryEvent "data.docx" 1 3 "Unsupported file type: docx" 2]
           ++ [failedEvent "data.docx" 3 "Unsupported file type: docx"],
         [1, 2]) := by
  have h := claim8_amended_unsupported_retried "ops/data.docx"
    (fun _ => DecodeResult.ok tblC2) 3 (by decide) (by decide)
  exact h.1.trans (by decide)

def fs9 : SourceRoot := ⟨false, [⟨"Sales", true, [⟨"a.csv", true, 100⟩]⟩]⟩

/-- C9 (counterexample): on a missing source root, `discover_sources`
returns the empty mapping but records NO ValidationEvent at all — in
particular zero `SOURCE_ROOT_NOT_FOUND` events, contradicting the claim
that one fatal event is recorded — and the other discovery variant,
`identify_sources`, raises `FileNotFoundError` to the caller instead of
returning. -/
theorem claim9_counterexample :
    (discover_sources "/missing" fs9).1 = []
    ∧ (discover_sources "/missing" fs9).2 = []
    ∧ ((discover_sources "/missing" fs9).2.filter
        (fun e => e.issueType == "SOURCE_ROOT_NOT_FOUND")).length = 0
    ∧ identify_sources "/missing" fs9
      = Except.error "FileNotFoundError: No such file or directory: /missing" :=
  ⟨rfl, rfl, rfl, rfl⟩

/-- C9 (amended): for every root path that does not exist,
`discover_sources` returns an empty mapping and does not raise, but records
no ValidationEvent whatsoever (only a console message); the near-duplicate
`identify_sources` performs no existence check and raises
`FileNotFoundError` to the caller. -/
theorem claim9_amended_missing_root (raw : String) (fs : SourceRoot)
    (h : fs.rootExists = false) :
    discover_sources raw fs = ([], [])
    ∧ identify_sources raw fs
      = Except.error ("FileNotFoundError: No such file or directory: " ++ raw) := by
  constructor
  · simp [discover_sources, h]
  · simp [identify_sources, h]

theorem claim9_amended_missing_root_witness :
    discover_sources "/missing" fs9 = ([], [])
    ∧ identify_sources "/missing" fs9
      = Except.error ("FileNotFoundError: No such file or directory: " ++ "/missing") :=
  claim9_amended_missing_root "/missing" fs9 rfl

/-- C6: the extractor selects the csv delimiter per file: when the
lower-cased base filename contains the `campaign` marker token the file is
parsed with the tab delimiter — so a comma-free tab-separated header yields
the tab-split field count, where the comma parse would have yielded a
single column — and every other csv file is parsed with the comma
delimiter. -/
theorem claim6_campaign_tab_delimiter (path : String) (header : String)
    (rows : List String) (oracle : String → ModResult)
    (hext : extOf path = "csv") :
    (containsSub (pyLower (basename path)).data "campaign".data = true →
      load_dataset_mod path (header :: rows) oracle
        = ModResult.ok (read_csv (header :: rows) '\t')
      ∧ (read_csv (header :: rows) '\t').ncols = header.data.count '\t' + 1
      ∧ (header.data.count ',' = 0 → (read_csv (header :: rows) ',').ncols = 1))
    ∧ (containsSub (pyLower (basename path)).data "campaign".data = false →
      load_dataset_mod path (header :: rows) oracle
        = ModResult.ok (read_csv (header :: rows) ',')
      ∧ (read_csv (header :: rows) ',').ncols = header.data.count ',' + 1) := by
  constructor
  · intro hcamp
    refine ⟨?_, read_csv_ncols header rows '\t', ?_⟩
    · simp [load_dataset_mod, hext, hcamp]
    · intro hnc
      rw [read_csv_ncols, hnc]
  · intro hcamp
    refine ⟨?_, read_csv_ncols header rows ','⟩
    simp [load_dataset_mod, hext, hcamp]

theorem claim6_campaign_tab_delimiter_witness :
    (load_dataset_mod "Marketing/campaign_launch.csv" ["a\tb\tc", "1\t2\t3"]
        (fun _ => ModResult.raised "x")
      = ModResult.ok (read_csv ["a\tb\tc", "1\t2\t3"] '\t')
    ∧ (read_csv ["a\tb\tc", "1\t2\t3"] '\t').ncols = 3
    ∧ (read_csv ["a\tb\tc", "1\t2\t3"] ',').ncols = 1)
    ∧ (load_dataset_mod "Operations/orders.csv" ["a,b,c", "1,2,3"]
        (fun _ => ModResult.raised "x")
      = ModResult.ok (read_csv ["a,b,c", "1,2,3"] ',')
    ∧ (read_csv ["a,b,c", "1,2,3"] ',').ncols = 3) := by
  constructor
  · have h := (claim6_campaign_tab_delimiter "Marketing/campaign_launch.csv" "a\tb\tc"
      ["1\t2\t3"] (fun _ => ModResult.raised "x") (by decide)).1 (by decide)
    exact ⟨h.1, h.2.1.trans (by decide), h.2.2 (by decide)⟩
  · have h := (claim6_campaign_tab_delimiter "Operations/orders.csv" "a,b,c"
      ["1,2,3"] (fun _ => ModResult.raised "x") (by decide)).2 (by decide)
    exact ⟨h.1, h.2.trans (by decide)⟩

/-- C7 (counterexample): the bronze writer's output name does NOT collapse
dot runs: for department `Sales` and source file `q1.report.csv` the code
produces `sales_q1.report_bronze.parquet` while the claimed normalization
(whitespace, hyphen AND dot runs collapsed) would give
`sales_q1_report_bronze.parquet`; the ingest-script variant of the naming
collapses dots but omits the claimed `_bronze` suffix tag entirely. -/
theorem claim7_counterexample :
    modded_out_name "Sales" "q1.report.csv" = "sales_q1.report_bronze.parquet"
    ∧ claimed_out_name "Sales" "q1.report.csv" = "sales_q1_report_bronze.parquet"
    ∧ modded_out_name "Sales" "q1.report.csv" ≠ claimed_out_name "Sales" "q1.report.csv"
    ∧ standardize_filename "q1.report.csv" "Sales" = "sales_q1_report.parquet" := by
  decide

/-- C7 (amended): the modded-script output filename is the deterministic
function of the department and source filename alone that lower-cases the
department unchanged, strips the base filename's final extension,
lower-cases it and collapses runs of whitespace and hyphens (interior dots
preserved) to a single underscore, and appends the fixed
`_bronze.parquet` tag — stated as agreement with the independently written
leading-run normalization rule, so two runs over an unchanged source tree
yield identical names. -/
theorem claim7_amended_naming (department file : String) :
    modded_out_name department file = amended_out_name department file := by
  unfold modded_out_name amended_out_name
  rw [collapseRuns_eq_spec]
